import Mathlib

/-!
Shallow embedding of the rendering core of `src/script.js` (mp3-to-video).

Numbers are modelled as exact rationals (`ℚ`) except the noise helpers,
which use real trigonometric functions (`ℝ`, `Real.sin`, `Real.cos`)
mirroring `Math.sin` / `Math.cos`.

Embedded source functions (second class variant of the file, the one the
claims cite):
* `noise01` / `noise11` (script.js:2074-2083),
* `getEffectIntensity` / `getIntensityScales` (script.js:2047-2058),
* the clip-resolution scan of `renderVideoFrame` (script.js:5060-5082),
* `drawSubtitles` (script.js:3844-3916),
* the fixed-timestep loop of `animateVideo` (script.js:4984-5058) and the
  cancellation bookkeeping of `stopGeneration` (script.js:4661-4671).
-/

namespace Mp3Video

/-! ### Noise engine (script.js:2074-2083)

`noise01(t, seed, freq)` computes
`x = t*freq + seed*0.123; 0.5 + 0.5*sin(x*2.3 + cos(x*0.7)*1.9 + seed*1.17)`.
`noise11` rescales it to `[-1,1]`. -/

/-- Embedding of `noise01` from script.js:2074-2079. -/
noncomputable def noise01 (t seed freq : ℝ) : ℝ :=
  let x := t * freq + seed * 0.123
  let v := Real.sin (x * 2.3 + Real.cos (x * 0.7) * 1.9 + seed * 1.17)
  0.5 + 0.5 * v

/-- Embedding of `noise11` from script.js:2081-2083. -/
noncomputable def noise11 (t seed freq : ℝ) : ℝ :=
  noise01 t seed freq * 2 - 1

/-! ### Intensity model (script.js:2047-2058)

The DOM input string is parsed with `parseInt`; we model the parse result
as `Option ℤ`, where `none` stands for a non-finite parse (`NaN`). -/

/-- Embedding of `getEffectIntensity` (script.js:2047-2051):
`parseInt` result `val`; non-finite returns 50; otherwise
`Math.min(100, Math.max(0, val))`. -/
def getEffectIntensity (input : Option ℤ) : ℤ :=
  match input with
  | none => 50
  | some val => min 100 (max 0 val)

/-- Result record of `getIntensityScales`. -/
structure IntensityScales where
  count : ℚ
  size : ℚ
  alpha : ℚ
  deriving DecidableEq

/-- Embedding of `getIntensityScales` (script.js:2052-2058):
`s = getEffectIntensity()`, `count = 0.2 + s/50`, `size = 0.7 + (s/100)*0.8`,
`alpha = 0.5 + (s/100)*0.5`. -/
def getIntensityScales (input : Option ℤ) : IntensityScales :=
  let s : ℚ := (getEffectIntensity input : ℚ)
  { count := 0.2 + s / 50
    size := 0.7 + s / 100 * 0.8
    alpha := 0.5 + s / 100 * 0.5 }

/-! ### Timeline resolver (script.js:5060-5082)

`renderVideoFrame` scans `sortedMediaItems` from the last index downwards
and keeps the first item whose window `[timestamp, timestamp + (duration || 2))`
contains `currentTime`; if none matches it rescans from the end for the
first item with `timestamp ≤ currentTime`. -/

/-- Kind of a media item (`item.type` in the source: image or video). -/
inductive MediaKind where
  | image
  | video
  deriving DecidableEq

/-- Media item fields used by the resolver: `timestamp`, `duration`
(absent modelled as `none`) and `type`. -/
structure MediaItem where
  timestamp : ℚ
  duration : Option ℚ
  kind : MediaKind
  deriving DecidableEq

/-- Effective duration used by the source expression `item.duration || 2`:
a missing duration is `undefined` (falsy) and an explicit `0` is falsy too,
so both fall back to `2`. -/
def effDuration (d : Option ℚ) : ℚ :=
  match d with
  | none => 2
  | some x => if x = 0 then 2 else x

/-- Backward scan of script.js:5064-5072: first item from the end whose
half-open window contains `t`. -/
def findCurrentItem (items : List MediaItem) (t : ℚ) : Option MediaItem :=
  items.reverse.find? fun it =>
    decide (it.timestamp ≤ t) && decide (t < it.timestamp + effDuration it.duration)

/-- Fallback scan of script.js:5075-5082: first item from the end with
`timestamp ≤ t`. -/
def findFallbackItem (items : List MediaItem) (t : ℚ) : Option MediaItem :=
  items.reverse.find? fun it => decide (it.timestamp ≤ t)

/-- Clip resolution of `renderVideoFrame` (script.js:5060-5082): the
windowed backward scan, then the fallback scan when nothing matched. -/
def resolveActiveClip (items : List MediaItem) (t : ℚ) : Option MediaItem :=
  match findCurrentItem items t with
  | some it => some it
  | none => findFallbackItem items t

/-- Modelled from the spec wording of claim C2: the duration of a clip is
its explicit duration; an Image clip with no explicit duration has
duration 2 seconds. A Video clip with no explicit duration is outside the
claim's description; the comparison theorem assumes it away, and this
definition arbitrarily assigns it 0. -/
def claimDuration (it : MediaItem) : ℚ :=
  match it.duration with
  | some d => d
  | none => match it.kind with
    | .image => 2
    | .video => 0

/-- Modelled from the spec wording of claim C2: scan from the last clip
backward for the first clip whose window `[startTime, startTime+duration)`
contains `t`; if none, the last clip whose `startTime ≤ t`. -/
def resolveClaimClip (items : List MediaItem) (t : ℚ) : Option MediaItem :=
  match items.reverse.find? (fun it =>
      decide (it.timestamp ≤ t) && decide (t < it.timestamp + claimDuration it)) with
  | some it => some it
  | none => items.reverse.find? fun it => decide (it.timestamp ≤ t)

/-! ### Subtitle positioner (script.js:3844-3916)

`drawSubtitles` filters the subtitles active at `currentTime`
(`start ≤ t < start + duration`), sorts them ascending by `start`
(a stable sort, as JS `Array.sort`), and draws only the first one, with a
fade alpha computed from the relative time and a fixed 0.2 s fade window.
We model the observable output as the drawn subtitle and its alpha. -/

/-- Subtitle entry: `text`, `start`, `duration`. -/
structure Subtitle where
  text : String
  start : ℚ
  duration : ℚ
  deriving DecidableEq

/-- Ordering used by the source comparator `(a, b) => a.start - b.start`. -/
def subRel (a b : Subtitle) : Prop := a.start ≤ b.start

instance : DecidableRel subRel := fun a b => inferInstanceAs (Decidable (a.start ≤ b.start))

/-- Activity test of script.js:3860: `currentTime >= s.start && currentTime < s.start + s.duration`. -/
def subActive (s : Subtitle) (t : ℚ) : Bool :=
  decide (s.start ≤ t) && decide (t < s.start + s.duration)

/-- Fade alpha of script.js:3896-3908: `relativeTime = max(0, t - start)`,
fade window 0.2 s at each end, result clamped to `[0,1]`. -/
def subtitleAlpha (s : Subtitle) (t : ℚ) : ℚ :=
  let relativeTime : ℚ := max 0 (t - s.start)
  let fadeTime : ℚ := 0.2
  let alpha : ℚ :=
    if relativeTime < fadeTime then relativeTime / fadeTime
    else if relativeTime > s.duration - fadeTime then (s.duration - relativeTime) / fadeTime
    else 1
  max 0 (min 1 alpha)

/-- Observable outcome of `drawSubtitles` (script.js:3844-3916): `none`
when nothing is drawn, otherwise the single drawn subtitle (head of the
active list sorted by start) and its fade alpha. -/
def drawSubtitles (subs : List Subtitle) (t : ℚ) : Option (Subtitle × ℚ) :=
  let active := List.insertionSort subRel (subs.filter fun s => subActive s t)
  match active with
  | [] => none
  | sub :: _ => some (sub, subtitleAlpha sub t)

/-! ### Frame scheduler (script.js:4984-5058) and cancellation (script.js:4661-4671)

`animateVideo` fixes `frameTime = 1000/fps` (milliseconds) and
`totalFrames = videoDuration * fps`, then on each `requestAnimationFrame`
callback renders every due frame (`elapsed >= frameTime`) up to a cap of 6
per callback (`if (framesRendered > 5) break` runs after the increment).
Each rendered frame `currentFrame` carries video time `currentFrame / fps`.
A callback whose run was cancelled or superseded
(`!this.isGenerating || this.activeGenerationId !== runId`) resolves
immediately without rendering or mutating the counters. -/

/-- Sample emitted for one frame: the frame index and the video time
`currentFrame / fps` passed to `renderVideoFrame` (script.js:5013, 5031). -/
structure RenderSample where
  frame : ℕ
  videoTime : ℚ
  deriving DecidableEq

/-- Shared flags read by the `animate` callback and written by
`stopGeneration`: `isGenerating` and `activeGenerationId`. -/
structure Globals where
  isGenerating : Bool
  activeGenerationId : ℕ
  deriving DecidableEq

/-- Cancellation bookkeeping of `stopGeneration` (script.js:4661-4671):
an early return when not generating, otherwise clear `isGenerating` and
increment the generation id. -/
def stopGeneration (g : Globals) : Globals :=
  if g.isGenerating = false then g
  else { isGenerating := false, activeGenerationId := g.activeGenerationId + 1 }

/-- Outcome of one callback or of a whole run: still waiting for the next
callback, resolved with all frames rendered, resolved by the stale-token
check, or rejected with an error (no source path produces this). -/
inductive SchedStatus where
  | running
  | completed
  | stopped
  | rejected
  deriving DecidableEq

/-- Inner `while` loop of script.js:5011-5044. Arguments after the fixed
`frameTime`, `totalFrames`, `fps`: `currentFrame`, `lastFrameTime`,
`elapsed`, `framesRendered`. Returns the emitted samples and the final
`currentFrame` and `lastFrameTime`. The source breaks after rendering when
`framesRendered > 5`, so at most 6 frames are rendered per call. -/
def animFrames (frameTime totalFrames fps : ℚ) (cf : ℕ) (lft elapsed : ℚ)
    (fr : ℕ) : List RenderSample × ℕ × ℚ :=
  if frameTime ≤ elapsed ∧ (cf : ℚ) < totalFrames then
    let s : RenderSample := ⟨cf, (cf : ℚ) / fps⟩
    if fr + 1 > 5 then ([s], cf + 1, lft + frameTime)
    else
      let r := animFrames frameTime totalFrames fps (cf + 1) (lft + frameTime)
        (elapsed - frameTime) (fr + 1)
      (s :: r.1, r.2)
  else ([], cf, lft)
termination_by 6 - fr
decreasing_by omega

/-- One `animate(currentTime)` callback (script.js:5003-5054): the stale
check, then the catch-up loop, then either re-registration
(`requestAnimationFrame`) or resolution. Returns the emitted samples, the
updated `currentFrame` and `lastFrameTime`, and the status. -/
def animateCallback (g : Globals) (runId : ℕ) (frameTime totalFrames fps : ℚ)
    (cf : ℕ) (lft currentTime : ℚ) : List RenderSample × ℕ × ℚ × SchedStatus :=
  if g.isGenerating = false ∨ g.activeGenerationId ≠ runId then
    ([], cf, lft, .stopped)
  else
    let r := animFrames frameTime totalFrames fps cf lft (currentTime - lft) 0
    if (r.2.1 : ℚ) < totalFrames then (r.1, r.2.1, r.2.2, .running)
    else (r.1, r.2.1, r.2.2, .completed)

/-- Repeated callbacks of the scheduler loop driven by a list of clock
values; stops processing once a callback resolves. -/
def runSched (g : Globals) (runId : ℕ) (frameTime totalFrames fps : ℚ) :
    ℕ → ℚ → List ℚ → List RenderSample × ℕ × SchedStatus
  | cf, _, [] => ([], cf, .running)
  | cf, lft, t :: ts =>
    let r := animateCallback g runId frameTime totalFrames fps cf lft t
    match r.2.2.2 with
    | .running =>
      let rest := runSched g runId frameTime totalFrames fps r.2.1 r.2.2.1 ts
      (r.1 ++ rest.1, rest.2)
    | st => (r.1, r.2.1, st)

/-- Whole scheduler run of `animateVideo` (script.js:4984-5058): fixes
`frameTime = 1000 / fps` and `totalFrames = videoDuration * fps`, starts at
frame 0 with `lastFrameTime` equal to the start clock `c0`, and processes
the callback clock values `ts`. -/
def animateVideoRun (g : Globals) (runId : ℕ) (videoDuration fps : ℚ)
    (c0 : ℚ) (ts : List ℚ) : List RenderSample × ℕ × SchedStatus :=
  runSched g runId (1000 / fps) (videoDuration * fps) fps 0 c0 ts

/-! ## Theorems -/

/-- C4: for every finite `(t, seed, freq)`, `noise01` lies in `[0, 1]` and
`noise11` lies in `[-1, 1]`. -/
theorem noise_bounds (t seed freq : ℝ) :
    0 ≤ noise01 t seed freq ∧ noise01 t seed freq ≤ 1 ∧
    -1 ≤ noise11 t seed freq ∧ noise11 t seed freq ≤ 1 := by
  have h1 := Real.neg_one_le_sin
    ((t * freq + seed * 0.123) * 2.3 + Real.cos ((t * freq + seed * 0.123) * 0.7) * 1.9
      + seed * 1.17)
  have h2 := Real.sin_le_one
    ((t * freq + seed * 0.123) * 2.3 + Real.cos ((t * freq + seed * 0.123) * 0.7) * 1.9
      + seed * 1.17)
  unfold noise11 noise01
  refine ⟨by linarith, by linarith, by linarith, by linarith⟩

/-- C3: `noise01` and `noise11` are pure functions of `(t, seed, freq)`:
two calls with equal finite numeric inputs return exactly the same value,
with no internal state. -/
theorem noise_deterministic (t₁ t₂ s₁ s₂ f₁ f₂ : ℝ)
    (ht : t₁ = t₂) (hs : s₁ = s₂) (hf : f₁ = f₂) :
    noise01 t₁ s₁ f₁ = noise01 t₂ s₂ f₂ ∧ noise11 t₁ s₁ f₁ = noise11 t₂ s₂ f₂ := by
  subst ht; subst hs; subst hf
  exact ⟨rfl, rfl⟩

/-- Witness for C3 at the concrete input `(1, 2, 3)`. -/
theorem noise_deterministic_witness :
    (1 : ℝ) = 1 ∧ (2 : ℝ) = 2 ∧ (3 : ℝ) = 3 ∧
    (noise01 1 2 3 = noise01 1 2 3 ∧ noise11 1 2 3 = noise11 1 2 3) :=
  ⟨rfl, rfl, rfl, noise_deterministic 1 1 2 2 3 3 rfl rfl rfl⟩

/-- C8 counterexample: the finite out-of-range input 150 clamps to the
bound 100, not to the default level 50, so the intensity model does not
behave as if the input were 50. -/
theorem intensity_default_counterexample :
    getEffectIntensity (some 150) = 100 ∧ getEffectIntensity (some 50) = 50 ∧
    (100 : ℤ) ≠ 50 := by decide

/-- C8 amended: a non-finite intensity input yields the default level 50,
while a finite out-of-range input clamps to the nearest bound of `[0, 100]`
(0 from below, 100 from above); in-range input is returned unchanged. -/
theorem intensity_default_amended (v : ℤ) :
    getEffectIntensity none = 50 ∧
    (100 < v → getEffectIntensity (some v) = 100) ∧
    (v < 0 → getEffectIntensity (some v) = 0) ∧
    (0 ≤ v → v ≤ 100 → getEffectIntensity (some v) = v) := by
  refine ⟨rfl, ?_, ?_, ?_⟩ <;>
    simp only [getEffectIntensity, min_def, max_def] <;> intros <;> split_ifs <;> omega

/-- Witness for C8's amended claim at the concrete inputs 150 and -7. -/
theorem intensity_default_amended_witness :
    (100 < (150 : ℤ) ∧ getEffectIntensity (some 150) = 100) ∧
    ((-7 : ℤ) < 0 ∧ getEffectIntensity (some (-7)) = 0) :=
  ⟨⟨by decide, (intensity_default_amended 150).2.1 (by decide)⟩,
   ⟨by decide, (intensity_default_amended (-7)).2.2.1 (by decide)⟩⟩

/-- C9: the three intensity scales are linear in the clamped level and
monotone non-decreasing in it; `count` strictly increases across levels
0, 50, 100; and for every finite input in `[-1000, 1000]` the scales stay
in `count ∈ [0.2, 2.2]`, `size ∈ [0.7, 1.5]`, `alpha ∈ [0.5, 1.0]`. -/
theorem intensity_scales_spec :
    (∀ i : Option ℤ,
      (getIntensityScales i).count = 0.2 + (getEffectIntensity i : ℚ) / 50 ∧
      (getIntensityScales i).size = 0.7 + (getEffectIntensity i : ℚ) / 100 * 0.8 ∧
      (getIntensityScales i).alpha = 0.5 + (getEffectIntensity i : ℚ) / 100 * 0.5) ∧
    (∀ i₁ i₂ : Option ℤ, getEffectIntensity i₁ ≤ getEffectIntensity i₂ →
      (getIntensityScales i₁).count ≤ (getIntensityScales i₂).count ∧
      (getIntensityScales i₁).size ≤ (getIntensityScales i₂).size ∧
      (getIntensityScales i₁).alpha ≤ (getIntensityScales i₂).alpha) ∧
    (getIntensityScales (some 0)).count < (getIntensityScales (some 50)).count ∧
    (getIntensityScales (some 50)).count < (getIntensityScales (some 100)).count ∧
    (∀ v : ℤ, -1000 ≤ v → v ≤ 1000 →
      0.2 ≤ (getIntensityScales (some v)).count ∧ (getIntensityScales (some v)).count ≤ 2.2 ∧
      0.7 ≤ (getIntensityScales (some v)).size ∧ (getIntensityScales (some v)).size ≤ 1.5 ∧
      0.5 ≤ (getIntensityScales (some v)).alpha ∧ (getIntensityScales (some v)).alpha ≤ 1) := by
  refine ⟨fun i => ⟨rfl, rfl, rfl⟩, ?_,
    by norm_num [getIntensityScales, getEffectIntensity],
    by norm_num [getIntensityScales, getEffectIntensity], ?_⟩
  · intro i₁ i₂ h
    have h' : ((getEffectIntensity i₁ : ℤ) : ℚ) ≤ ((getEffectIntensity i₂ : ℤ) : ℚ) := by
      exact_mod_cast h
    unfold getIntensityScales
    refine ⟨?_, ?_, ?_⟩ <;> dsimp only <;> linarith
  · intro v _ _
    have h0 : (0 : ℤ) ≤ getEffectIntensity (some v) := by
      simp only [getEffectIntensity]; omega
    have h100 : getEffectIntensity (some v) ≤ 100 := by
      simp only [getEffectIntensity]; omega
    have h0' : (0 : ℚ) ≤ ((getEffectIntensity (some v) : ℤ) : ℚ) := by exact_mod_cast h0
    have h100' : ((getEffectIntensity (some v) : ℤ) : ℚ) ≤ 100 := by exact_mod_cast h100
    unfold getIntensityScales
    refine ⟨?_, ?_, ?_, ?_, ?_, ?_⟩ <;> dsimp only <;> linarith

/-- Witness for C9 at the concrete inputs 10 ≤ 20 and 500. -/
theorem intensity_scales_spec_witness :
    (getEffectIntensity (some 10) ≤ getEffectIntensity (some 20) ∧
      (getIntensityScales (some 10)).count ≤ (getIntensityScales (some 20)).count) ∧
    ((-1000 : ℤ) ≤ 500 ∧ (500 : ℤ) ≤ 1000 ∧
      0.2 ≤ (getIntensityScales (some 500)).count) :=
  ⟨⟨by decide, (intensity_scales_spec.2.1 (some 10) (some 20) (by decide)).1⟩,
   ⟨by decide, by decide, (intensity_scales_spec.2.2.2.2 500 (by decide) (by decide)).1⟩⟩

/-! ### Timeline resolver theorems (C1, C2) -/

/-- Clip 0 of the spec's timeline example: start 0, duration 5. -/
def demoClip0 : MediaItem := ⟨0, some 5, .image⟩

/-- Clip 1 of the spec's timeline example: start 5, duration 3. -/
def demoClip1 : MediaItem := ⟨5, some 3, .image⟩

/-- Clip 2 of the spec's timeline example: start 10, duration 2. -/
def demoClip2 : MediaItem := ⟨10, some 2, .image⟩

/-- The spec's timeline example, sorted by start time. -/
def demoClips : List MediaItem := [demoClip0, demoClip1, demoClip2]

/-- C1 counterexample: at `t = 8.5` (the gap) the fallback scan returns
clip 1 — the last clip whose start time `5 ≤ 8.5` — not clip 2, whose
start time 10 exceeds 8.5. -/
theorem timeline_example_counterexample :
    resolveActiveClip demoClips (17/2) = some demoClip1 ∧ demoClip1 ≠ demoClip2 := by
  constructor
  · norm_num [resolveActiveClip, findCurrentItem, findFallbackItem, demoClips, demoClip0,
      demoClip1, demoClip2, effDuration]
  · simp only [demoClip1, demoClip2, ne_eq, MediaItem.mk.injEq]
    norm_num

/-- C1 amended: for the example clip list, the resolver returns clip 0 on
`[0,5)`, clip 1 on `[5,8)`, clip 2 on `[10,12)`, clip 1 (not clip 2) as the
fallback at `t = 8.5` in the gap, and clip 2 as the fallback at `t = 100`
past the end. -/
theorem timeline_example_amended (t : ℚ) :
    (0 ≤ t → t < 5 → resolveActiveClip demoClips t = some demoClip0) ∧
    (5 ≤ t → t < 8 → resolveActiveClip demoClips t = some demoClip1) ∧
    (10 ≤ t → t < 12 → resolveActiveClip demoClips t = some demoClip2) ∧
    resolveActiveClip demoClips (17/2) = some demoClip1 ∧
    resolveActiveClip demoClips 100 = some demoClip2 := by
  refine ⟨?_, ?_, ?_, timeline_example_counterexample.1, ?_⟩
  · intro h0 h5
    have hn10 : ¬ (10 : ℚ) ≤ t := by linarith
    have hn5 : ¬ (5 : ℚ) ≤ t := by linarith
    norm_num [resolveActiveClip, findCurrentItem, findFallbackItem, demoClips, demoClip0,
      demoClip1, demoClip2, effDuration, h0, h5, hn10, hn5]
  · intro h5 h8
    have hcur : findCurrentItem demoClips t = some demoClip1 := by
      unfold findCurrentItem
      rw [show demoClips.reverse = [demoClip2, demoClip1, demoClip0] from rfl]
      rw [List.find?_cons_of_neg, List.find?_cons_of_pos]
      · simp only [demoClip1, effDuration]
        norm_num [h5, h8]
      · simp only [demoClip2, effDuration]
        norm_num
        intro h
        linarith
    unfold resolveActiveClip
    rw [hcur]
  · intro h10 h12
    norm_num [resolveActiveClip, findCurrentItem, findFallbackItem, demoClips, demoClip0,
      demoClip1, demoClip2, effDuration, h10, h12]
  · norm_num [resolveActiveClip, findCurrentItem, findFallbackItem, demoClips, demoClip0,
      demoClip1, demoClip2, effDuration]

/-- Witness for C1's amended claim at the concrete time `t = 1`. -/
theorem timeline_example_amended_witness :
    (0 : ℚ) ≤ 1 ∧ (1 : ℚ) < 5 ∧ resolveActiveClip demoClips 1 = some demoClip0 :=
  ⟨by norm_num, by norm_num, (timeline_example_amended 1).1 (by norm_num) (by norm_num)⟩

/-- Pointwise-equal predicates give equal `find?` results. -/
theorem find?_congr_local {α : Type} (p q : α → Bool) :
    ∀ l : List α, (∀ x ∈ l, p x = q x) → l.find? p = l.find? q
  | [], _ => rfl
  | a :: l, h => by
    simp only [List.find?]
    rw [h a (List.mem_cons_self a l)]
    cases hq : q a
    · exact find?_congr_local p q l fun x hx => h x (List.mem_cons_of_mem a hx)
    · rfl

/-- C2: the source resolver agrees with the claim's description — the
backward scan for the first clip whose window `[startTime,
startTime+duration)` contains `t` (an Image clip with no explicit duration
having duration 2), with the last clip whose `startTime ≤ t` as fallback —
whenever every Video clip has an explicit duration and no explicit
duration is 0 (the source treats a `0` duration as falsy and replaces it
by 2 as well). -/
theorem resolver_matches_claim (items : List MediaItem) (t : ℚ)
    (hvid : ∀ it ∈ items, it.kind = .video → it.duration ≠ none)
    (hdur : ∀ it ∈ items, it.duration ≠ some 0) :
    resolveActiveClip items t = resolveClaimClip items t := by
  have key : ∀ it ∈ items, effDuration it.duration = claimDuration it := by
    intro it hit
    match h : it.duration with
    | none =>
      match hk : it.kind with
      | .image => simp [effDuration, claimDuration, h, hk]
      | .video => exact absurd h (hvid it hit hk)
    | some d =>
      have hd : d ≠ 0 := by
        intro h0
        exact hdur it hit (h0 ▸ h)
      simp [effDuration, claimDuration, h, hd]
  have hfind :
      items.reverse.find? (fun it =>
        decide (it.timestamp ≤ t) && decide (t < it.timestamp + effDuration it.duration)) =
      items.reverse.find? (fun it =>
        decide (it.timestamp ≤ t) && decide (t < it.timestamp + claimDuration it)) := by
    apply find?_congr_local
    intro x hx
    rw [key x (List.mem_reverse.mp hx)]
  unfold resolveActiveClip findCurrentItem findFallbackItem resolveClaimClip
  rw [hfind]

/-- Witness for C2 on the example clip list at `t = 1`. -/
theorem resolver_matches_claim_witness :
    (∀ it ∈ demoClips, it.kind = .video → it.duration ≠ none) ∧
    (∀ it ∈ demoClips, it.duration ≠ some 0) ∧
    resolveActiveClip demoClips 1 = resolveClaimClip demoClips 1 := by
  have h1 : ∀ it ∈ demoClips, it.kind = MediaKind.video → it.duration ≠ none := by
    intro it hit
    simp only [demoClips, demoClip0, demoClip1, demoClip2, List.mem_cons,
      List.not_mem_nil, or_false] at hit
    rcases hit with h | h | h <;> subst h <;> simp
  have h2 : ∀ it ∈ demoClips, it.duration ≠ some 0 := by
    intro it hit
    simp only [demoClips, demoClip0, demoClip1, demoClip2, List.mem_cons,
      List.not_mem_nil, or_false] at hit
    rcases hit with h | h | h <;> subst h <;> norm_num
  exact ⟨h1, h2, resolver_matches_claim demoClips 1 h1 h2⟩

/-! ### Subtitle theorems (C10) -/

instance : IsTotal Subtitle subRel :=
  ⟨fun a b => le_total a.start b.start⟩

instance : IsTrans Subtitle subRel :=
  ⟨fun _ _ _ hab hbc => le_trans hab hbc⟩

/-- The example caption of the spec: start 2, duration 3. -/
def capDemo : Subtitle := ⟨"demo", 2, 3⟩

/-- Evaluation of `drawSubtitles` on a single caption. -/
theorem drawSubtitles_single (s : Subtitle) (t : ℚ) :
    drawSubtitles [s] t =
      if subActive s t then some (s, subtitleAlpha s t) else none := by
  by_cases h : subActive s t = true
  · simp [drawSubtitles, h]
  · simp [drawSubtitles, Bool.eq_false_iff.mpr h, h]

/-- C10: the caption `{start=2, duration=3}` is drawn exactly for
`t ∈ [2,5)`; at `t = 2.1` its alpha is strictly between 0 and 1 (mid
fade-in), at `t = 4.9` strictly between 0 and 1 (mid fade-out); outside
the window nothing is drawn; and whenever several captions are active the
drawn caption is an active one of minimal start time. -/
theorem caption_window_spec :
    (∀ t : ℚ, (drawSubtitles [capDemo] t).isSome ↔ (2 ≤ t ∧ t < 5)) ∧
    (∃ a : ℚ, drawSubtitles [capDemo] (21/10) = some (capDemo, a) ∧ 0 < a ∧ a < 1) ∧
    (∃ a : ℚ, drawSubtitles [capDemo] (49/10) = some (capDemo, a) ∧ 0 < a ∧ a < 1) ∧
    (∀ t : ℚ, t < 2 ∨ 5 ≤ t → drawSubtitles [capDemo] t = none) ∧
    (∀ (subs : List Subtitle) (t : ℚ) (s : Subtitle) (a : ℚ),
      drawSubtitles subs t = some (s, a) →
      s ∈ subs ∧ subActive s t = true ∧
      ∀ s' ∈ subs, subActive s' t = true → s.start ≤ s'.start) := by
  have hwin : ∀ t : ℚ, subActive capDemo t = true ↔ (2 ≤ t ∧ t < 5) := by
    intro t
    simp only [subActive, capDemo, Bool.and_eq_true, decide_eq_true_eq]
    norm_num
  refine ⟨?_, ?_, ?_, ?_, ?_⟩
  · intro t
    rw [drawSubtitles_single]
    by_cases h : subActive capDemo t = true
    · simp [h, hwin t |>.mp h]
    · simp [Bool.eq_false_iff.mpr h, (hwin t).not.mp h]
  · refine ⟨1/2, ?_, by norm_num, by norm_num⟩
    rw [drawSubtitles_single, if_pos ((hwin _).mpr (by norm_num))]
    have : subtitleAlpha capDemo (21/10) = 1/2 := by
      simp only [subtitleAlpha, capDemo]
      norm_num
    rw [this]
  · refine ⟨1/2, ?_, by norm_num, by norm_num⟩
    rw [drawSubtitles_single, if_pos ((hwin _).mpr (by norm_num))]
    have : subtitleAlpha capDemo (49/10) = 1/2 := by
      simp only [subtitleAlpha, capDemo]
      norm_num
    rw [this]
  · intro t ht
    rw [drawSubtitles_single]
    rw [if_neg]
    intro h
    rcases (hwin t).mp h with ⟨h2, h5⟩
    rcases ht with h | h
    · linarith
    · linarith
  · intro subs t s a h
    unfold drawSubtitles at h
    revert h
    cases hA : List.insertionSort subRel (subs.filter fun x => subActive x t) with
    | nil => intro h; cases h
    | cons sub rest =>
      intro h
      have hs : sub = s := by
        simpa using congrArg (Option.map Prod.fst) h
      subst hs
      have hperm := List.perm_insertionSort subRel (subs.filter fun x => subActive x t)
      rw [hA] at hperm
      have hmem : sub ∈ subs.filter fun x => subActive x t :=
        hperm.mem_iff.mp (List.mem_cons_self sub rest)
      have hsub : sub ∈ subs := (List.mem_filter.mp hmem).1
      have hact : subActive sub t = true := (List.mem_filter.mp hmem).2
      refine ⟨hsub, hact, ?_⟩
      intro s' hs' hact'
      have hmem' : s' ∈ subs.filter fun x => subActive x t :=
        List.mem_filter.mpr ⟨hs', hact'⟩
      have hsorted := List.sorted_insertionSort subRel (subs.filter fun x => subActive x t)
      rw [hA] at hsorted
      rcases List.mem_cons.mp (hperm.mem_iff.mpr hmem') with h' | h'
      · exact le_of_eq (by rw [h'])
      · exact List.rel_of_sorted_cons hsorted s' h'

/-- Witness for C10 at the concrete times `t = 7` (outside the window) and
`t = 2.5` (inside, drawn caption is minimal). -/
theorem caption_window_spec_witness :
    (((7 : ℚ) < 2 ∨ (5 : ℚ) ≤ 7) ∧ drawSubtitles [capDemo] 7 = none) ∧
    (drawSubtitles [capDemo] (5/2) = some (capDemo, 1) ∧
      capDemo ∈ [capDemo] ∧ subActive capDemo (5/2) = true) := by
  have hdraw : drawSubtitles [capDemo] (5/2) = some (capDemo, 1) := by
    rw [drawSubtitles_single]
    rw [if_pos]
    · have : subtitleAlpha capDemo (5/2) = 1 := by
        simp only [subtitleAlpha, capDemo]
        norm_num
      rw [this]
    · simp only [subActive, capDemo, Bool.and_eq_true, decide_eq_true_eq]
      norm_num
  refine ⟨⟨Or.inr (by norm_num), caption_window_spec.2.2.2.1 7 (Or.inr (by norm_num))⟩,
    hdraw, ?_, (caption_window_spec.2.2.2.2 [capDemo] (5/2) capDemo 1 hdraw).2.1⟩
  exact (caption_window_spec.2.2.2.2 [capDemo] (5/2) capDemo 1 hdraw).1

/-! ### Scheduler lemmas -/

/-- Sample emitted for frame index `k` at frame rate `fps`. -/
def sampleOf (fps : ℚ) (k : ℕ) : RenderSample := ⟨k, (k : ℚ) / fps⟩

/-- Catch-up loop characterization: `animFrames` emits the samples of some
count `m` of consecutive frame indices starting at `cf`, advances
`currentFrame` by `m` and `lastFrameTime` by `m * frameTime`, and every
emitted index was below `totalFrames` at emission time. -/
theorem animFrames_spec (ft tf fps : ℚ) :
    ∀ (n fr : ℕ), 6 - fr ≤ n → ∀ (cf : ℕ) (lft elapsed : ℚ),
    ∃ m, animFrames ft tf fps cf lft elapsed fr =
        ((List.range' cf m).map (sampleOf fps), cf + m, lft + (m : ℚ) * ft) ∧
      ∀ j, j < m → ((cf + j : ℕ) : ℚ) < tf := by
  intro n
  induction n with
  | zero =>
    intro fr hfr cf lft elapsed
    rw [animFrames]
    by_cases hg : ft ≤ elapsed ∧ (cf : ℚ) < tf
    · rw [if_pos hg]
      have h6 : fr + 1 > 5 := by omega
      rw [if_pos h6]
      refine ⟨1, ?_, ?_⟩
      · simp [List.range'_one, sampleOf]
      · intro j hj
        have hj0 : j = 0 := by omega
        subst hj0
        simpa using hg.2
    · rw [if_neg hg]
      exact ⟨0, by simp, by omega⟩
  | succ n ih =>
    intro fr hfr cf lft elapsed
    rw [animFrames]
    by_cases hg : ft ≤ elapsed ∧ (cf : ℚ) < tf
    · rw [if_pos hg]
      by_cases h6 : fr + 1 > 5
      · rw [if_pos h6]
        refine ⟨1, ?_, ?_⟩
        · simp [List.range'_one, sampleOf]
        · intro j hj
          have hj0 : j = 0 := by omega
          subst hj0
          simpa using hg.2
      · rw [if_neg h6]
        obtain ⟨m, hm, hb⟩ := ih (fr + 1) (by omega) (cf + 1) (lft + ft) (elapsed - ft)
        refine ⟨m + 1, ?_, ?_⟩
        · rw [hm]
          rw [List.range'_succ]
          simp only [List.map_cons, sampleOf, Prod.mk.injEq]
          refine ⟨trivial, by omega, ?_⟩
          push_cast
          ring
        · intro j hj
          match j with
          | 0 => simpa using hg.2
          | j + 1 =>
            have h' := hb j (by omega)
            have he : cf + (j + 1) = cf + 1 + j := by omega
            rw [he]
            exact h'
    · rw [if_neg hg]
      exact ⟨0, by simp, by omega⟩

/-- Whole-run characterization: a scheduler run emits the samples of `m`
consecutive frame indices starting at the initial frame, each below
`totalFrames` when emitted; a completed run stopped exactly because the
frame counter reached `totalFrames`; and no run is ever rejected. -/
theorem runSched_spec (g : Globals) (runId : ℕ) (ft tf fps : ℚ) :
    ∀ (ts : List ℚ) (cf : ℕ) (lft : ℚ),
    ∃ m st, runSched g runId ft tf fps cf lft ts =
        ((List.range' cf m).map (sampleOf fps), cf + m, st) ∧
      (∀ j, j < m → ((cf + j : ℕ) : ℚ) < tf) ∧
      (st = .completed → ¬ ((cf + m : ℕ) : ℚ) < tf) ∧
      st ≠ .rejected := by
  intro ts
  induction ts with
  | nil =>
    intro cf lft
    exact ⟨0, .running, by simp [runSched], by omega, by simp, by simp⟩
  | cons t ts ih =>
    intro cf lft
    by_cases hstale : g.isGenerating = false ∨ g.activeGenerationId ≠ runId
    · have hcb : animateCallback g runId ft tf fps cf lft t = ([], cf, lft, .stopped) := by
        unfold animateCallback
        rw [if_pos hstale]
      refine ⟨0, .stopped, ?_, by omega, by simp, by simp⟩
      simp [runSched, hcb]
    · obtain ⟨m₁, hm₁, hb₁⟩ := animFrames_spec ft tf fps 6 0 (by omega) cf lft (t - lft)
      by_cases hlt : ((cf + m₁ : ℕ) : ℚ) < tf
      · have hcb : animateCallback g runId ft tf fps cf lft t =
            ((List.range' cf m₁).map (sampleOf fps), cf + m₁, lft + (m₁ : ℚ) * ft,
              .running) := by
          unfold animateCallback
          rw [if_neg hstale, hm₁]
          dsimp only
          rw [if_pos hlt]
        obtain ⟨m₂, st, hm₂, hb₂, hcomp, hrej⟩ := ih (cf + m₁) (lft + (m₁ : ℚ) * ft)
        refine ⟨m₁ + m₂, st, ?_, ?_, ?_, hrej⟩
        · simp only [runSched, hcb]
          rw [hm₂]
          dsimp only
          rw [← List.map_append, List.range'_append_1]
          simp only [Prod.mk.injEq]
          exact ⟨by rw [Nat.add_comm m₂ m₁], by omega, trivial⟩
        · intro j hj
          by_cases hjm : j < m₁
          · exact hb₁ j hjm
          · have h' := hb₂ (j - m₁) (by omega)
            have he : cf + j = cf + m₁ + (j - m₁) := by omega
            rw [he]
            exact h'
        · intro hst
          have h' := hcomp hst
          have he : cf + (m₁ + m₂) = cf + m₁ + m₂ := by omega
          rw [he]
          exact h'
      · have hcb : animateCallback g runId ft tf fps cf lft t =
            ((List.range' cf m₁).map (sampleOf fps), cf + m₁, lft + (m₁ : ℚ) * ft,
              .completed) := by
          unfold animateCallback
          rw [if_neg hstale, hm₁]
          dsimp only
          rw [if_neg hlt]
        refine ⟨m₁, .completed, ?_, hb₁, fun _ => hlt, by simp⟩
        simp [runSched, hcb]

/-- C5: a run of the scheduler with `duration = 10`, `fps = 30` (under its
own generation token and no cancellation) emits samples with distinct,
strictly increasing frame indices, frame `k` carrying video time `k / 30`,
and — for every driving sequence of clock values that reaches completion —
exactly the 300 samples of frames `0..299`. -/
theorem scheduler_300_frames (rid : ℕ) (c0 : ℚ) (ts : List ℚ) :
    ((animateVideoRun ⟨true, rid⟩ rid 10 30 c0 ts).1.map RenderSample.frame).Pairwise
      (· < ·) ∧
    (∀ s ∈ (animateVideoRun ⟨true, rid⟩ rid 10 30 c0 ts).1,
      s.videoTime = (s.frame : ℚ) / 30) ∧
    ((animateVideoRun ⟨true, rid⟩ rid 10 30 c0 ts).2.2 = SchedStatus.completed →
      (animateVideoRun ⟨true, rid⟩ rid 10 30 c0 ts).1 =
        (List.range 300).map (sampleOf 30) ∧
      (animateVideoRun ⟨true, rid⟩ rid 10 30 c0 ts).1.length = 300) := by
  obtain ⟨m, st, hrun, hb, hcomp, _⟩ :=
    runSched_spec ⟨true, rid⟩ rid (1000/30) (10*30) 30 ts 0 c0
  have ha : animateVideoRun ⟨true, rid⟩ rid 10 30 c0 ts =
      ((List.range' 0 m).map (sampleOf 30), 0 + m, st) := by
    unfold animateVideoRun
    exact hrun
  simp only [show ((10 : ℚ) * 30) = 300 from by norm_num, Nat.zero_add] at hb hcomp
  refine ⟨?_, ?_, ?_⟩
  · rw [ha]
    dsimp only
    rw [List.map_map]
    have hcompose : (RenderSample.frame ∘ sampleOf 30) = id := rfl
    rw [hcompose, List.map_id]
    exact List.pairwise_lt_range' 0 m
  · intro s hs
    rw [ha] at hs
    dsimp only at hs
    obtain ⟨k, _, hk⟩ := List.mem_map.mp hs
    rw [← hk]
    rfl
  · intro hc
    rw [ha] at hc
    dsimp only at hc
    have hnot := hcomp hc
    have hge : 300 ≤ m := by
      by_contra hlt
      push_neg at hlt
      exact hnot (by exact_mod_cast hlt)
    have hle : m ≤ 300 := by
      by_contra hgt
      push_neg at hgt
      have h300 := hb 300 hgt
      norm_num at h300
    have hm : m = 300 := le_antisymm hle hge
    subst hm
    rw [ha]
    dsimp only
    rw [List.range_eq_range']
    exact ⟨rfl, by rw [List.length_map, List.length_range']⟩

/-- Clock values advancing by 200 ms per callback from a given start. -/
def ascList (lft : ℚ) : ℕ → List ℚ
  | 0 => []
  | n + 1 => (lft + 200) :: ascList (lft + 200) n

/-- With `frameTime = 1000/30` and at least `(m+1) · frameTime` of elapsed
time, the catch-up loop entered with `framesRendered = fr`,
`fr + (m+1) = 6`, renders exactly `m+1` frames. -/
theorem animFrames_full :
    ∀ (m fr cf : ℕ) (lft elapsed : ℚ),
      fr + (m + 1) = 6 → ((m + 1 : ℕ) : ℚ) * (1000/30) ≤ elapsed →
      (∀ j, j < m + 1 → ((cf + j : ℕ) : ℚ) < 300) →
      ∃ out, animFrames (1000/30) 300 30 cf lft elapsed fr =
        (out, cf + (m + 1), lft + ((m + 1 : ℕ) : ℚ) * (1000/30)) := by
  intro m
  induction m with
  | zero =>
    intro fr cf lft elapsed hfr helap hb
    rw [animFrames]
    have hg : (1000/30 : ℚ) ≤ elapsed ∧ (cf : ℚ) < 300 := by
      constructor
      · calc (1000/30 : ℚ) = ((0 + 1 : ℕ) : ℚ) * (1000/30) := by push_cast; ring
        _ ≤ elapsed := helap
      · simpa using hb 0 (by omega)
    rw [if_pos hg, if_pos (show fr + 1 > 5 by omega)]
    refine ⟨[⟨cf, (cf : ℚ) / 30⟩], ?_⟩
    simp only [Prod.mk.injEq]
    refine ⟨trivial, trivial, ?_⟩
    push_cast
    ring
  | succ m ih =>
    intro fr cf lft elapsed hfr helap hb
    rw [animFrames]
    have hnn : (0 : ℚ) ≤ ((m + 1 : ℕ) : ℚ) * (1000/30) := by positivity
    have hg : (1000/30 : ℚ) ≤ elapsed ∧ (cf : ℚ) < 300 := by
      constructor
      · push_cast at helap hnn ⊢
        linarith
      · simpa using hb 0 (by omega)
    rw [if_pos hg, if_neg (show ¬ fr + 1 > 5 by omega)]
    obtain ⟨out, hout⟩ := ih (fr + 1) (cf + 1) (lft + 1000/30) (elapsed - 1000/30)
      (by omega)
      (by push_cast at helap ⊢; linarith)
      (by
        intro j hj
        have h' := hb (j + 1) (by omega)
        rw [show cf + 1 + j = cf + (j + 1) from by omega]
        exact h')
    refine ⟨⟨cf, (cf : ℚ) / 30⟩ :: out, ?_⟩
    rw [hout]
    simp only [Prod.mk.injEq]
    refine ⟨trivial, by omega, ?_⟩
    push_cast
    ring

/-- Driving the 10 s / 30 fps scheduler with clock values that advance by
200 ms per callback completes the run once the frame counter reaches 300. -/
theorem runSched_completes (rid : ℕ) :
    ∀ (n cf : ℕ) (lft : ℚ), cf + 6 * (n + 1) = 300 →
      (runSched ⟨true, rid⟩ rid (1000/30) 300 30 cf lft (ascList lft (n + 1))).2.2 =
        SchedStatus.completed := by
  have hstale : ∀ rid' : ℕ, ¬ ((Globals.mk true rid').isGenerating = false ∨
      (Globals.mk true rid').activeGenerationId ≠ rid') := by
    intro rid'
    simp
  intro n
  induction n with
  | zero =>
    intro cf lft hcf
    obtain ⟨out, hout⟩ := animFrames_full 5 0 cf lft ((lft + 200) - lft)
      (by omega)
      (by push_cast; ring_nf; norm_num)
      (by
        intro j hj
        have h' : cf + j < 300 := by omega
        exact_mod_cast h')
    have hcb : animateCallback ⟨true, rid⟩ rid (1000/30) 300 30 cf lft (lft + 200) =
        (out, cf + 6, lft + ((6 : ℕ) : ℚ) * (1000/30), SchedStatus.completed) := by
      unfold animateCallback
      rw [if_neg (hstale rid), hout]
      dsimp only
      rw [if_neg (by rw [show cf + (5 + 1) = 300 from by omega]; norm_num)]
    simp only [ascList, runSched, hcb]
  | succ n ih =>
    intro cf lft hcf
    obtain ⟨out, hout⟩ := animFrames_full 5 0 cf lft ((lft + 200) - lft)
      (by omega)
      (by push_cast; ring_nf; norm_num)
      (by
        intro j hj
        have h' : cf + j < 300 := by omega
        exact_mod_cast h')
    have hcb : animateCallback ⟨true, rid⟩ rid (1000/30) 300 30 cf lft (lft + 200) =
        (out, cf + 6, lft + ((6 : ℕ) : ℚ) * (1000/30), SchedStatus.running) := by
      unfold animateCallback
      rw [if_neg (hstale rid), hout]
      dsimp only
      rw [if_pos (by
        rw [show cf + (5 + 1) = cf + 6 from by omega]
        have h' : cf + 6 < 300 := by omega
        exact_mod_cast h')]
    have hlft : lft + ((6 : ℕ) : ℚ) * (1000/30) = lft + 200 := by
      push_cast
      ring_nf
    simp only [ascList, runSched, hcb]
    rw [hlft]
    exact ih (cf + 6) (lft + 200) (by omega)

/-- Witness for C5: from start clock 0, fifty callbacks 200 ms apart drive
the 10 s / 30 fps run to completion with exactly the samples of frames
`0..299`. -/
theorem scheduler_300_frames_witness :
    (animateVideoRun ⟨true, 1⟩ 1 10 30 0 (ascList 0 50)).2.2 = SchedStatus.completed ∧
    (animateVideoRun ⟨true, 1⟩ 1 10 30 0 (ascList 0 50)).1 =
      (List.range 300).map (sampleOf 30) := by
  have hc : (animateVideoRun ⟨true, 1⟩ 1 10 30 0 (ascList 0 50)).2.2 =
      SchedStatus.completed := by
    unfold animateVideoRun
    rw [show ((10 : ℚ) * 30) = 300 from by norm_num]
    exact runSched_completes 1 49 0 0 (by omega)
  exact ⟨hc, ((scheduler_300_frames 1 0 (ascList 0 50)).2.2 hc).1⟩

/-- C6: a scheduling callback whose captured run token differs from the
current generation token exits immediately: it emits no sample and leaves
`currentFrame` and `lastFrameTime` unchanged; and cancellation
(`stopGeneration`) of a running generation increments the token, after
which every callback of the superseded loop is such a no-op. -/
theorem stale_token_no_emission (g : Globals) (runId : ℕ) (ft tf fps : ℚ)
    (cf : ℕ) (lft t : ℚ) (h : g.activeGenerationId ≠ runId) :
    animateCallback g runId ft tf fps cf lft t = ([], cf, lft, SchedStatus.stopped) ∧
    (g.isGenerating = true →
      (stopGeneration g).activeGenerationId ≠ g.activeGenerationId ∧
      (stopGeneration g).isGenerating = false ∧
      ∀ (cf' : ℕ) (lft' t' : ℚ),
        animateCallback (stopGeneration g) g.activeGenerationId ft tf fps cf' lft' t' =
          ([], cf', lft', SchedStatus.stopped)) := by
  constructor
  · unfold animateCallback
    rw [if_pos (Or.inr h)]
  · intro hgen
    have hstop : stopGeneration g = ⟨false, g.activeGenerationId + 1⟩ := by
      unfold stopGeneration
      rw [if_neg (by rw [hgen]; simp)]
    refine ⟨by rw [hstop]; simp, by rw [hstop], ?_⟩
    intro cf' lft' t'
    unfold animateCallback
    rw [if_pos (Or.inl (by rw [hstop]))]

/-- Witness for C6 at a concrete stale callback: current token 2, captured
token 1. -/
theorem stale_token_no_emission_witness :
    (Globals.mk true 2).activeGenerationId ≠ 1 ∧
    animateCallback ⟨true, 2⟩ 1 (1000/30) 300 30 7 5 100 =
      ([], 7, 5, SchedStatus.stopped) :=
  ⟨by decide,
    (stale_token_no_emission ⟨true, 2⟩ 1 (1000/30) 300 30 7 5 100 (by decide)).1⟩

/-- Run of the scheduler with a non-positive `duration * fps`: the first
callback emits nothing and resolves as completed. -/
theorem runSched_degenerate (rid : ℕ) (d fps c0 t : ℚ) (ts : List ℚ)
    (h : d * fps ≤ 0) :
    animateVideoRun ⟨true, rid⟩ rid d fps c0 (t :: ts) =
      ([], 0, SchedStatus.completed) := by
  unfold animateVideoRun
  have hframes : animFrames (1000/fps) (d*fps) fps 0 c0 (t - c0) 0 = ([], 0, c0) := by
    rw [animFrames]
    rw [if_neg]
    intro hcontra
    have h2 := hcontra.2
    norm_num at h2
    linarith
  have hcb : animateCallback ⟨true, rid⟩ rid (1000/fps) (d*fps) fps 0 c0 t =
      ([], 0, c0, SchedStatus.completed) := by
    unfold animateCallback
    rw [if_neg (by simp), hframes]
    dsimp only
    rw [if_neg (by norm_num; linarith)]
  simp only [runSched, hcb]

/-- C7 counterexample: starting the scheduler with the invalid duration 0
(at fps 30) is not rejected — the run completes silently with no frame
emitted. -/
theorem scheduler_reject_counterexample :
    animateVideoRun ⟨true, 1⟩ 1 0 30 0 [1000] = ([], 0, SchedStatus.completed) ∧
    SchedStatus.completed ≠ SchedStatus.rejected := by
  exact ⟨runSched_degenerate 1 0 30 0 1000 [] (by norm_num), by decide⟩

/-- C7 amended: starting the scheduler with an invalid duration or fps
(non-positive product `duration * fps`) is not rejected loudly: no frame is
emitted and the run resolves as completed on the first scheduling
callback; indeed no scheduler run ever produces a rejection. -/
theorem scheduler_invalid_start_amended (rid : ℕ) (d fps c0 t : ℚ)
    (ts ts' : List ℚ) (h : d * fps ≤ 0) :
    animateVideoRun ⟨true, rid⟩ rid d fps c0 (t :: ts) =
      ([], 0, SchedStatus.completed) ∧
    (animateVideoRun ⟨true, rid⟩ rid d fps c0 ts').2.2 ≠ SchedStatus.rejected := by
  refine ⟨runSched_degenerate rid d fps c0 t ts h, ?_⟩
  obtain ⟨m, st, hrun, _, _, hrej⟩ :=
    runSched_spec ⟨true, rid⟩ rid (1000/fps) (d*fps) fps ts' 0 c0
  unfold animateVideoRun
  rw [hrun]
  exact hrej

/-- Witness for C7's amended claim at duration 0, fps 30. -/
theorem scheduler_invalid_start_amended_witness :
    ((0 : ℚ) * 30 ≤ 0) ∧
    animateVideoRun ⟨true, 1⟩ 1 0 30 0 [1000] = ([], 0, SchedStatus.completed) :=
  ⟨by norm_num,
    (scheduler_invalid_start_amended 1 0 30 0 1000 [] [] (by norm_num)).1⟩

end Mp3Video
